import Mathlib

/-!
Verification of the username-impersonation spam filter of the discord-bots
repository.

JavaScript strings are modelled as lists of Unicode code points (`List Char`).
The Unicode data consulted by the JavaScript runtime (the NFKC mapping, the
general categories behind the regular-expression classes, the lowercase
mapping) is modelled by concrete tables that agree with Unicode on the
character repertoire used in this development and default to the identity
(respectively to `false` / `none`) elsewhere.

The database collection behind the spam-filter configuration is modelled as a
list of `SpamFilterConfig` records; the guild directory
(`ServiceUtils.getMembersWithRoles`) is an explicit function parameter.
-/

/-- JavaScript strings viewed as sequences of Unicode code points. -/
abbrev Str := List Char

/- Named non-ASCII code points used by the model, written with explicit code
point values so that visually confusable source text cannot hide a mistake. -/

/-- Fullwidth Latin small letter j, U+FF4A. -/
def fwJ : Char := Char.ofNat 0xFF4A

/-- Fullwidth Latin small letter o, U+FF4F. -/
def fwO : Char := Char.ofNat 0xFF4F

/-- Fullwidth Latin small letter e, U+FF45. -/
def fwE : Char := Char.ofNat 0xFF45

/-- Black star, U+2605, general category So. -/
def blackStar : Char := Char.ofNat 0x2605

/-- Grinning face emoji, U+1F600, general category So. -/
def grinningFace : Char := Char.ofNat 0x1F600

/-- No-break space, U+00A0, matched by the JavaScript regex class backslash-s. -/
def nbsp : Char := Char.ofNat 0x00A0

/-- Ideographic space, U+3000, matched by the JavaScript regex class backslash-s. -/
def ideographicSpace : Char := Char.ofNat 0x3000

/-- Cyrillic small letter o, U+043E, confusable with Latin o. -/
def cyrO : Char := Char.ofNat 0x043E

/-- Cyrillic small letter ie, U+0435, confusable with Latin e. -/
def cyrE : Char := Char.ofNat 0x0435

/-- Cyrillic small letter je, U+0458, confusable with Latin j. -/
def cyrJe : Char := Char.ofNat 0x0458

/-- Cyrillic small letter a, U+0430, confusable with Latin a. -/
def cyrA : Char := Char.ofNat 0x0430

/-- Latin capital letter I with circumflex, U+00CE: the first of the two
literal characters inside the character class of `nonStandardCharsRegex` in
the source (`/[^\w\s\p{P}\p{S}Îž]/gu`). -/
def latinCapICircumflex : Char := Char.ofNat 0x00CE

/-- Latin small letter i with circumflex, U+00EE, the lowercase of U+00CE. -/
def latinSmallICircumflex : Char := Char.ofNat 0x00EE

/-- Latin capital letter Z with caron, U+017D. -/
def latinCapZCaron : Char := Char.ofNat 0x017D

/-- Latin small letter z with caron, U+017E: the second of the two literal
characters inside the character class of `nonStandardCharsRegex` in the
source. -/
def latinSmallZCaron : Char := Char.ofNat 0x017E

/-- Model of `String.prototype.normalize('NFKC')`, applied code point by code
point: the genuine NFKC mapping on the repertoire of this development
(fullwidth letters decay to their ASCII forms) and the identity elsewhere. -/
def nfkcChar (c : Char) : List Char :=
  if c = fwJ then ['j']
  else if c = fwO then ['o']
  else if c = fwE then ['e']
  else [c]

/-- Model of the regex class `\p{So}` (`emojiRegex = /\p{So}/gu` in the
source): true exactly on the Other Symbol code points of the repertoire. -/
def isOtherSymbol (c : Char) : Bool :=
  if c = blackStar then true
  else if c = grinningFace then true
  else false

/-- Model of the regex class `[\s]` (`whitespaceRegex = /[\s]/g` in the
source): true exactly on the whitespace code points of the repertoire. -/
def isWhitespaceJS (c : Char) : Bool :=
  if c = ' ' then true
  else if c = '\t' then true
  else if c = '\n' then true
  else if c = '\r' then true
  else if c = nbsp then true
  else if c = ideographicSpace then true
  else false

/-- Model of the regex class `\w`: ASCII letters, digits and underscore. -/
def isWordChar (c : Char) : Bool :=
  if (48 ≤ c.toNat ∧ c.toNat ≤ 57) ∨ (65 ≤ c.toNat ∧ c.toNat ≤ 90) ∨
      c.toNat = 95 ∨ (97 ≤ c.toNat ∧ c.toNat ≤ 122) then true
  else false

/-- Model of the regex class `[\p{P}\p{S}]` on the repertoire: every ASCII
code point in those two general categories (the four ASCII punctuation and
symbol ranges); the non-ASCII code points of the repertoire that fall in P or
S are not consulted by any claim, so the model leaves them out. -/
def isPunctOrSymbolChar (c : Char) : Bool :=
  if (33 ≤ c.toNat ∧ c.toNat ≤ 47) ∨ (58 ≤ c.toNat ∧ c.toNat ≤ 64) ∨
      (91 ≤ c.toNat ∧ c.toNat ≤ 96) ∨ (123 ≤ c.toNat ∧ c.toNat ≤ 126) then true
  else false

/-- Modelled from the spec: `Confusables.ts` is not under src/. The spec
describes it as a static mapping from a confusable Unicode code point to its
canonical Latin equivalent; the model maps a few Cyrillic look-alikes to
their Latin equivalents and is undefined elsewhere. -/
def confusables (c : Char) : Option Char :=
  if c = cyrO then some 'o'
  else if c = cyrE then some 'e'
  else if c = cyrJe then some 'j'
  else if c = cyrA then some 'a'
  else none

/-- The character class of `nonStandardCharsRegex = /[^\w\s\p{P}\p{S}Îž]/gu`
in the source: a code point matches when it is none of a word character, a
whitespace character, a punctuation or symbol character, and neither of the
two literal characters U+00CE and U+017E that appear in the class. -/
def nonStandardChar (c : Char) : Bool :=
  !(isWordChar c || isWhitespaceJS c || isPunctOrSymbolChar c ||
    c = latinCapICircumflex || c = latinSmallZCaron)

/-- Model of `String.prototype.toLowerCase`, code point by code point: the
Unicode simple lowercase mapping on the repertoire (ASCII A-Z, U+00CE,
U+017D) and the identity elsewhere. -/
def toLowerChar (c : Char) : Char :=
  if c = 'A' then 'a'
  else if c = 'B' then 'b'
  else if c = 'C' then 'c'
  else if c = 'D' then 'd'
  else if c = 'E' then 'e'
  else if c = 'F' then 'f'
  else if c = 'G' then 'g'
  else if c = 'H' then 'h'
  else if c = 'I' then 'i'
  else if c = 'J' then 'j'
  else if c = 'K' then 'k'
  else if c = 'L' then 'l'
  else if c = 'M' then 'm'
  else if c = 'N' then 'n'
  else if c = 'O' then 'o'
  else if c = 'P' then 'p'
  else if c = 'Q' then 'q'
  else if c = 'R' then 'r'
  else if c = 'S' then 's'
  else if c = 'T' then 't'
  else if c = 'U' then 'u'
  else if c = 'V' then 'v'
  else if c = 'W' then 'w'
  else if c = 'X' then 'x'
  else if c = 'Y' then 'y'
  else if c = 'Z' then 'z'
  else if c = latinCapICircumflex then latinSmallICircumflex
  else if c = latinCapZCaron then latinSmallZCaron
  else c

/-- The replacement function of the confusable-substitution stage: the source
replaces every match of `nonStandardCharsRegex` by
`Confusables.get(char) || char`. -/
def substChar (c : Char) : List Char :=
  if nonStandardChar c then
    match confusables c with
    | some r => [r]
    | none => [c]
  else [c]

/-- `SpamFilter.sanitizeUsername`: NFKC normalization, removal of Other
Symbol code points, removal of whitespace, confusable substitution on the
matches of `nonStandardCharsRegex`, lowercasing — in the order of the
source's method chain. -/
def sanitizeUsername (s : Str) : Str :=
  ((((s.flatMap nfkcChar).filter fun c => !isOtherSymbol c).filter
      fun c => !isWhitespaceJS c).flatMap substChar).map toLowerChar

/-- The action of `sanitizeUsername` on a single code point of the input. -/
def charStep (c : Char) : Str :=
  ((((nfkcChar c).filter fun d => !isOtherSymbol d).filter
      fun d => !isWhitespaceJS d).flatMap substChar).map toLowerChar

/-- Every code point whose model tables are not the defaults. -/
def specialChars : List Char :=
  ['A', 'B', 'C', 'D', 'E', 'F', 'G', 'H', 'I', 'J', 'K', 'L', 'M',
   'N', 'O', 'P', 'Q', 'R', 'S', 'T', 'U', 'V', 'W', 'X', 'Y', 'Z',
   fwJ, fwO, fwE, blackStar, grinningFace,
   ' ', '\t', '\n', '\r', nbsp, ideographicSpace,
   cyrO, cyrE, cyrJe, cyrA,
   latinCapICircumflex, latinCapZCaron, latinSmallZCaron]

theorem sanitize_sample : sanitizeUsername "J o e".toList = "joe".toList := by decide

/-- `sanitizeUsername` processes the input one code point at a time. -/
theorem sanitizeUsername_eq_flatMap (s : Str) : sanitizeUsername s = s.flatMap charStep := by
  induction s with
  | nil => rfl
  | cons c s ih =>
    simp only [sanitizeUsername, charStep, List.flatMap_cons, List.filter_append,
      List.flatMap_append, List.map_append] at *
    rw [ih]

/-- Away from the finitely many code points with non-default table entries,
`sanitizeUsername` fixes a code point. -/
theorem charStep_default (c : Char) (h : c ∉ specialChars) : charStep c = [c] := by
  simp only [specialChars, List.mem_cons, List.not_mem_nil, or_false, not_or] at h
  obtain ⟨hA, hB, hC, hD, hE, hF, hG, hH, hI, hJ, hK, hL, hM, hN, hO, hP, hQ, hR, hS,
    hT, hU, hV, hW, hX, hY, hZ, h1, h2, h3, h4, h5, h6, h7, h8, h9, h10, h11, h12,
    h13, h14, h15, h16, h17, h18⟩ := h
  simp [charStep, nfkcChar, isOtherSymbol, isWhitespaceJS, substChar, confusables,
    toLowerChar, hA, hB, hC, hD, hE, hF, hG, hH, hI, hJ, hK, hL, hM, hN, hO, hP,
    hQ, hR, hS, hT, hU, hV, hW, hX, hY, hZ, h1, h2, h3, h4, h5, h6, h7, h8, h9,
    h10, h11, h12, h13, h14, h15, h16, h17, h18]

/-- Every code point emitted by `charStep` is itself fixed by `charStep`. -/
theorem charStep_idem (c : Char) : (charStep c).flatMap charStep = charStep c := by
  by_cases h : c ∈ specialChars
  · fin_cases h <;> decide
  · rw [charStep_default c h]
    simp [charStep_default c h]


/-- Stage 1 of the spec's normalizer: Unicode NFKC normalization. -/
def nfkcStage (s : Str) : Str := s.flatMap nfkcChar

/-- Stage 2 of the spec's normalizer: strip all Other Symbol code points. -/
def stripOtherSymbolStage (s : Str) : Str := s.filter fun c => !isOtherSymbol c

/-- Stage 3 of the spec's normalizer: strip all whitespace code points. -/
def stripWhitespaceStage (s : Str) : Str := s.filter fun c => !isWhitespaceJS c

/-- Stage 4 of the spec's normalizer, stated in the spec's words: for every
remaining code point that is not an ASCII word character and not a Unicode
punctuation or symbol character, substitute its Confusables mapping when one
exists, else pass it through. -/
def specSubstChar (c : Char) : List Char :=
  if !isWordChar c && !isPunctOrSymbolChar c then
    match confusables c with
    | some r => [r]
    | none => [c]
  else [c]

/-- Stage 4 of the spec's normalizer applied to a whole string. -/
def confusableStage (s : Str) : Str := s.flatMap specSubstChar

/-- Stage 5 of the spec's normalizer: lower-case the result. -/
def lowercaseStage (s : Str) : Str := s.map toLowerChar

/-- The normalizer exactly as the spec words it, the five stages in the
spec's order, for comparison against the source's `sanitizeUsername`. -/
def specNormalize (s : Str) : Str :=
  lowercaseStage (confusableStage (stripWhitespaceStage (stripOtherSymbolStage (nfkcStage s))))

/-- The code points on which the source's substitution predicate (the
character class of `nonStandardCharsRegex`) and the spec's stage-4 predicate
could differ: whitespace and the two literal class members U+00CE, U+017E. -/
def divergentClassChars : List Char :=
  [' ', '\t', '\n', '\r', nbsp, ideographicSpace, latinCapICircumflex, latinSmallZCaron]

/-- The source's substitution step agrees with the spec's stage 4 on every
code point: on whitespace (already stripped before this stage) and on the two
extra class members U+00CE and U+017E the Confusables table has no entry, so
exempting them from the lookup is not observable. -/
theorem substChar_eq_specSubstChar (c : Char) : substChar c = specSubstChar c := by
  by_cases h : c ∈ divergentClassChars
  · fin_cases h <;> decide
  · simp only [divergentClassChars, List.mem_cons, List.not_mem_nil, or_false, not_or] at h
    obtain ⟨h1, h2, h3, h4, h5, h6, h7, h8⟩ := h
    simp [substChar, specSubstChar, nonStandardChar, isWhitespaceJS,
      h1, h2, h3, h4, h5, h6, h7, h8]

/-- Claim C4: for every input string, `sanitizeUsername` applies exactly the
five transformations of the spec — NFKC normalization, removal of Other
Symbol code points, removal of whitespace code points, Confusables
substitution on every remaining code point that is neither an ASCII word
character nor a Unicode punctuation or symbol character, lower-casing — in
this order. -/
theorem sanitizeUsername_eq_specNormalize (s : Str) : sanitizeUsername s = specNormalize s := by
  have h : substChar = specSubstChar := funext substChar_eq_specSubstChar
  simp [sanitizeUsername, specNormalize, lowercaseStage, confusableStage,
    stripWhitespaceStage, stripOtherSymbolStage, nfkcStage, h]

/-- Claim C5: normalization is idempotent — for every string s,
`sanitizeUsername (sanitizeUsername s) = sanitizeUsername s`. -/
theorem sanitizeUsername_idempotent (s : Str) :
    sanitizeUsername (sanitizeUsername s) = sanitizeUsername s := by
  simp only [sanitizeUsername_eq_flatMap, List.flatMap_assoc, charStep_idem]

/-- Claim C6: normalization is case- and whitespace-insensitive —
`sanitizeUsername "J o e" = sanitizeUsername "joe"` and
`sanitizeUsername "JOE" = sanitizeUsername "joe"`. -/
theorem sanitizeUsername_case_whitespace_insensitive :
    sanitizeUsername "J o e".toList = sanitizeUsername "joe".toList ∧
    sanitizeUsername "JOE".toList = sanitizeUsername "joe".toList := by decide

/-- Modelled from the spec: `SpamFilterConfigType.ts` is not under src/; the
spec names the three object types protected role, allowlist role and
allowlist user, and these are the three enum members the sources use. -/
inductive SpamFilterConfigType where
  | PROTECTED_ROLE
  | ALLOWLIST_ROLE
  | ALLOWLIST_USER
deriving DecidableEq

/-- One record of the username-spam-filter configuration collection
(`SpamFilterConfig.ts`). -/
structure SpamFilterConfig where
  objectType : SpamFilterConfigType
  discordObjectId : Str
  discordObjectName : Str
  discordServerId : Str
  discordServerName : Str
deriving DecidableEq

/-- A guild member as the engine consumes it: user id, username, optional
nickname, current role ids, guild id, and the bannable capability flag. -/
structure GuildMember where
  userId : Str
  username : Str
  nickname : Option Str
  roleIds : List Str
  guildId : Str
  bannable : Bool
deriving DecidableEq

/-- JavaScript truthiness of a nullable string (`member.nickname`). -/
def truthyNick : Option Str → Bool
  | none => false
  | some s => !s.isEmpty

/-- `SpamFilter.memberOnAllowlist`: `findOne` on the collection for an
`ALLOWLIST_USER` record with the member's user id and the guild's id. -/
def memberOnAllowlist (member : GuildMember) (db : List SpamFilterConfig) : Bool :=
  db.any fun c => decide (c.objectType = SpamFilterConfigType.ALLOWLIST_USER ∧
    c.discordObjectId = member.userId ∧ c.discordServerId = member.guildId)

/-- Modelled from the spec: `ServiceUtils.hasSomeRole` is not under src/; the
spec's skip condition is that the candidate currently holds any role present
as an AllowlistRole record for the server. -/
def hasSomeRole (member : GuildMember) (roleIds : List Str) : Bool :=
  member.roleIds.any fun r => roleIds.contains r

/-- `SpamFilter.roleOnAllowlist`: collect the `ALLOWLIST_ROLE` records of the
guild and test whether the member holds one of those roles. -/
def roleOnAllowlist (member : GuildMember) (db : List SpamFilterConfig) : Bool :=
  let allowlistRoles := (db.filter fun c =>
    decide (c.objectType = SpamFilterConfigType.ALLOWLIST_ROLE ∧
      c.discordServerId = member.guildId)).map (·.discordObjectId)
  hasSomeRole member allowlistRoles

/-- `SpamFilter.skipUsernameSpamFilter`: skip when the member is not
bannable, else when the member is on the user allowlist, else when the member
holds an allowlisted role. -/
def skipUsernameSpamFilter (member : GuildMember) (db : List SpamFilterConfig) : Bool :=
  if !member.bannable then true
  else if memberOnAllowlist member db then true
  else if roleOnAllowlist member db then true
  else false

/-- `SpamFilter.getProtectedRolesForServer`: the `PROTECTED_ROLE` records of
the guild, projected to their role ids. -/
def getProtectedRolesForServer (member : GuildMember) (db : List SpamFilterConfig) : List Str :=
  (db.filter fun c => decide (c.objectType = SpamFilterConfigType.PROTECTED_ROLE ∧
    c.discordServerId = member.guildId)).map (·.discordObjectId)

/-- The observable side effects of one engine run, restricted to the warning
direct message and the ban call with their outcome log lines. -/
inductive Effect where
  | dmAttempt
  | dmFailLog
  | banAttempt
  | banSuccessLog
  | banFailLog
deriving DecidableEq

/-- The side-effect trace of the match branch of `runUsernameSpamFilter`:
`member.send(...).catch(log)` followed by
`member.ban(...).then(log).catch(log)`, with `dmOk` and `banOk` telling
whether the respective external call succeeds. -/
def banPhaseEffects (dmOk banOk : Bool) : List Effect :=
  [Effect.dmAttempt] ++ (if dmOk then [] else [Effect.dmFailLog]) ++
  [Effect.banAttempt] ++ (if banOk then [Effect.banSuccessLog] else [Effect.banFailLog])

/-- The sanitized protected names: for each protected member the nickname
when one is set, else the username, sanitized. -/
def protectedNamesOf (protectedMembers : List GuildMember) : List Str :=
  protectedMembers.map fun pm =>
    if truthyNick pm.nickname then sanitizeUsername (pm.nickname.getD [])
    else sanitizeUsername pm.username

/-- `SpamFilter.runUsernameSpamFilter`. The guild directory
(`ServiceUtils.getMembersWithRoles`, not under src/) is the function
parameter `getMembersWithRoles` from role ids to current members; `dmOk` and
`banOk` are the outcomes of the two external calls of the match branch. The
result is the boolean verdict paired with the side-effect trace. The
source's match test `nickname && protectedNames.includes(nickname)` guards
on the JavaScript truthiness of the SANITIZED nickname (the local `nickname`
holds the sanitized string), so an empty sanitized nickname never produces a
nickname match. -/
def runUsernameSpamFilter (member : GuildMember) (db : List SpamFilterConfig)
    (getMembersWithRoles : List Str → List GuildMember)
    (dmOk banOk : Bool) : Bool × List Effect :=
  if skipUsernameSpamFilter member db then (false, [])
  else
    let protectedRoles := getProtectedRolesForServer member db
    if protectedRoles.length = 0 then (false, [])
    else
      let protectedMembers := getMembersWithRoles protectedRoles
      let protectedNames := protectedNamesOf protectedMembers
      let nicknameSan : Option Str :=
        if truthyNick member.nickname then some (sanitizeUsername (member.nickname.getD []))
        else none
      let usernameSan := sanitizeUsername member.username
      let nickMatch : Bool :=
        match nicknameSan with
        | some n => !n.isEmpty && protectedNames.contains n
        | none => false
      if nickMatch || protectedNames.contains usernameSan then
        (true, banPhaseEffects dmOk banOk)
      else (false, [])

/-- Unfolding of `runUsernameSpamFilter` past a failed skip check and a
non-empty protected-role configuration. -/
theorem run_unfold (member : GuildMember) (db : List SpamFilterConfig)
    (g : List Str → List GuildMember) (dmOk banOk : Bool)
    (hskip : skipUsernameSpamFilter member db = false)
    (hlen : getProtectedRolesForServer member db ≠ []) :
    runUsernameSpamFilter member db g dmOk banOk =
      if (truthyNick member.nickname = true ∧
            sanitizeUsername (member.nickname.getD []) ≠ [] ∧
            sanitizeUsername (member.nickname.getD []) ∈
              protectedNamesOf (g (getProtectedRolesForServer member db))) ∨
          sanitizeUsername member.username ∈
            protectedNamesOf (g (getProtectedRolesForServer member db))
      then (true, banPhaseEffects dmOk banOk) else (false, []) := by
  have hlen0 : ¬ (getProtectedRolesForServer member db).length = 0 := by
    simpa [List.length_eq_zero] using hlen
  simp only [runUsernameSpamFilter, hskip, Bool.false_eq_true, if_false, hlen0]
  cases htr : truthyNick member.nickname with
  | false =>
    simp only [htr, Bool.false_eq_true, false_and, false_or, if_false]
    by_cases hm : sanitizeUsername member.username ∈
        protectedNamesOf (g (getProtectedRolesForServer member db)) <;>
      simp [hm]
  | true =>
    simp only [htr, true_and, if_true]
    by_cases he : sanitizeUsername (member.nickname.getD []) = [] <;>
      by_cases hn : sanitizeUsername (member.nickname.getD []) ∈
        protectedNamesOf (g (getProtectedRolesForServer member db)) <;>
      by_cases hm : sanitizeUsername member.username ∈
        protectedNamesOf (g (getProtectedRolesForServer member db)) <;>
      simp [he, hn, hm, List.isEmpty_iff]

/-- Claim C1 as amended: past the skip check and with at least one
protected-role record, the verdict is true exactly when the sanitized
nickname (when a nickname is set and its sanitized form is non-empty — the
source tests JavaScript truthiness of the sanitized string) or the sanitized
username occurs among the sanitized display names of the protected roles'
current members; a false verdict comes with an empty side-effect trace. -/
theorem run_match_iff_amended (member : GuildMember) (db : List SpamFilterConfig)
    (g : List Str → List GuildMember) (dmOk banOk : Bool)
    (hskip : skipUsernameSpamFilter member db = false)
    (hcfg : getProtectedRolesForServer member db ≠ []) :
    ((runUsernameSpamFilter member db g dmOk banOk).1 = true ↔
      ((truthyNick member.nickname = true ∧
        sanitizeUsername (member.nickname.getD []) ≠ [] ∧
        sanitizeUsername (member.nickname.getD []) ∈
          protectedNamesOf (g (getProtectedRolesForServer member db))) ∨
       sanitizeUsername member.username ∈
          protectedNamesOf (g (getProtectedRolesForServer member db)))) ∧
    ((runUsernameSpamFilter member db g dmOk banOk).1 = false →
      (runUsernameSpamFilter member db g dmOk banOk).2 = []) := by
  rw [run_unfold member db g dmOk banOk hskip hcfg]
  by_cases h : (truthyNick member.nickname = true ∧
      sanitizeUsername (member.nickname.getD []) ≠ [] ∧
      sanitizeUsername (member.nickname.getD []) ∈
        protectedNamesOf (g (getProtectedRolesForServer member db))) ∨
      sanitizeUsername member.username ∈
        protectedNamesOf (g (getProtectedRolesForServer member db)) <;>
    simp [h]

/-- Claim C2: the skip check is the disjunction, in the source's order, of
not-bannable, user allowlisted, role allowlisted, and a skipped member gets
verdict false with no side effects — in particular an allowlisted member is
never banned whatever their name. -/
theorem skip_shortcircuit (member : GuildMember) (db : List SpamFilterConfig)
    (g : List Str → List GuildMember) (dmOk banOk : Bool) :
    skipUsernameSpamFilter member db =
      (!member.bannable || memberOnAllowlist member db || roleOnAllowlist member db) ∧
    (skipUsernameSpamFilter member db = true →
      runUsernameSpamFilter member db g dmOk banOk = (false, [])) := by
  constructor
  · cases hb : member.bannable <;>
      cases h1 : memberOnAllowlist member db <;>
      cases h2 : roleOnAllowlist member db <;>
      simp [skipUsernameSpamFilter, hb, h1, h2]
  · intro h
    simp [runUsernameSpamFilter, h]

/-- Claim C3: past the skip check, an empty protected-role configuration
yields verdict false with no side effects, for every candidate identity and
every guild directory. -/
theorem run_noConfig (member : GuildMember) (db : List SpamFilterConfig)
    (g : List Str → List GuildMember) (dmOk banOk : Bool)
    (hskip : skipUsernameSpamFilter member db = false)
    (hcfg : getProtectedRolesForServer member db = []) :
    runUsernameSpamFilter member db g dmOk banOk = (false, []) := by
  simp [runUsernameSpamFilter, hskip, hcfg]

/-- Claim C7: on a match the warning direct message is attempted before the
ban call, a failed direct message adds a log entry but does not prevent the
ban, and the verdict is true for every combination of direct-message and ban
outcomes. -/
theorem run_match_effects (member : GuildMember) (db : List SpamFilterConfig)
    (g : List Str → List GuildMember) (dmOk banOk : Bool)
    (hskip : skipUsernameSpamFilter member db = false)
    (hcfg : getProtectedRolesForServer member db ≠ [])
    (hmatch : (truthyNick member.nickname = true ∧
        sanitizeUsername (member.nickname.getD []) ≠ [] ∧
        sanitizeUsername (member.nickname.getD []) ∈
          protectedNamesOf (g (getProtectedRolesForServer member db))) ∨
        sanitizeUsername member.username ∈
          protectedNamesOf (g (getProtectedRolesForServer member db))) :
    runUsernameSpamFilter member db g dmOk banOk =
      (true, [Effect.dmAttempt] ++ (if dmOk then [] else [Effect.dmFailLog]) ++
        [Effect.banAttempt] ++
        (if banOk then [Effect.banSuccessLog] else [Effect.banFailLog])) := by
  rw [run_unfold member db g dmOk banOk hskip hcfg, if_pos hmatch]
  rfl

/-- Guild id of the worked example. -/
def exGuildId : Str := "guild-1".toList

/-- A protected-role configuration record of the worked example. -/
def protRoleRec : SpamFilterConfig :=
  { objectType := SpamFilterConfigType.PROTECTED_ROLE,
    discordObjectId := "role-p".toList, discordObjectName := "Protected".toList,
    discordServerId := exGuildId, discordServerName := "Guild".toList }

/-- Configuration store of the worked example: one protected role. -/
def exDb : List SpamFilterConfig := [protRoleRec]

/-- The protected member of the worked example. -/
def exProtectedMember : GuildMember :=
  { userId := "1001".toList, username := "Frogmonkee".toList, nickname := none,
    roleIds := ["role-p".toList], guildId := exGuildId, bannable := false }

/-- Guild directory of the worked example. -/
def exDirectory : List Str → List GuildMember := fun _ => [exProtectedMember]

/-- A bannable, non-allowlisted candidate whose username sanitizes to the
protected member's sanitized name. -/
def exImpersonator : GuildMember :=
  { userId := "2002".toList, username := "FROG MONKEE".toList, nickname := none,
    roleIds := [], guildId := exGuildId, bannable := true }

/-- Configuration store that additionally allowlists the impersonator. -/
def exAllowDb : List SpamFilterConfig :=
  [protRoleRec,
   { objectType := SpamFilterConfigType.ALLOWLIST_USER,
     discordObjectId := "2002".toList, discordObjectName := "imp".toList,
     discordServerId := exGuildId, discordServerName := "Guild".toList }]

/-- Witness for claim C1 (as amended) at the worked example. -/
theorem run_match_iff_amended_witness :
    ((runUsernameSpamFilter exImpersonator exDb exDirectory true true).1 = true ↔
      ((truthyNick exImpersonator.nickname = true ∧
        sanitizeUsername (exImpersonator.nickname.getD []) ≠ [] ∧
        sanitizeUsername (exImpersonator.nickname.getD []) ∈
          protectedNamesOf (exDirectory (getProtectedRolesForServer exImpersonator exDb))) ∨
       sanitizeUsername exImpersonator.username ∈
          protectedNamesOf (exDirectory (getProtectedRolesForServer exImpersonator exDb)))) ∧
    ((runUsernameSpamFilter exImpersonator exDb exDirectory true true).1 = false →
      (runUsernameSpamFilter exImpersonator exDb exDirectory true true).2 = []) :=
  run_match_iff_amended exImpersonator exDb exDirectory true true (by decide) (by decide)

/-- Witness for claim C2: the allowlisted impersonator, whose username
sanitizes to a protected name, still gets verdict false and no effects. -/
theorem skip_shortcircuit_witness :
    runUsernameSpamFilter exImpersonator exAllowDb exDirectory true true = (false, []) :=
  (skip_shortcircuit exImpersonator exAllowDb exDirectory true true).2 (by decide)

/-- Witness for claim C3: with an empty configuration store the impersonator
passes the skip check and still gets verdict false and no effects. -/
theorem run_noConfig_witness :
    runUsernameSpamFilter exImpersonator [] exDirectory true true = (false, []) :=
  run_noConfig exImpersonator [] exDirectory true true (by decide) (by decide)

/-- Witness for claim C7: with both external calls failing, the trace still
shows the direct-message attempt, its failure log, the ban attempt and its
failure log, and the verdict is true. -/
theorem run_match_effects_witness :
    runUsernameSpamFilter exImpersonator exDb exDirectory false false =
      (true, [Effect.dmAttempt] ++ (if false then [] else [Effect.dmFailLog]) ++
        [Effect.banAttempt] ++
        (if false then [Effect.banSuccessLog] else [Effect.banFailLog])) :=
  run_match_effects exImpersonator exDb exDirectory false false
    (by decide) (by decide) (by decide)

/-- A protected member whose display name is one black star and one space,
so that it sanitizes to the empty string. -/
def exStarMember : GuildMember :=
  { userId := "3003".toList, username := [blackStar, ' '], nickname := none,
    roleIds := ["role-p".toList], guildId := exGuildId, bannable := false }

/-- Guild directory resolving the protected role to the star-named member. -/
def exStarDirectory : List Str → List GuildMember := fun _ => [exStarMember]

/-- A bannable candidate whose username is a single emoji, sanitizing to the
empty string. -/
def exEmojiCandidate : GuildMember :=
  { userId := "4004".toList, username := [grinningFace], nickname := none,
    roleIds := [], guildId := exGuildId, bannable := true }

/-- Claim C10: empty canonical forms collide — a protected display name of
Other Symbol and whitespace code points sanitizes to the empty string, an
emoji-only candidate username sanitizes to the empty string, and the engine
returns verdict true for that candidate. -/
theorem run_empty_sanitized_collision :
    sanitizeUsername [blackStar, ' '] = [] ∧ sanitizeUsername [grinningFace] = [] ∧
    (runUsernameSpamFilter exEmojiCandidate exDb exStarDirectory true true).1 = true := by
  decide

/-- A bannable candidate with an emoji-only nickname (truthy as a raw string,
sanitizing to the empty string) and a username matching no protected name. -/
def exEmojiNickCandidate : GuildMember :=
  { userId := "5005".toList, username := "harmless".toList,
    nickname := some [grinningFace], roleIds := [], guildId := exGuildId,
    bannable := true }

/-- Counterexample to claim C1 as stated: the candidate passes the skip
check, a protected role is configured, a nickname is set and its sanitized
form (the empty string) occurs among the sanitized protected names, yet the
engine returns verdict false with no side effects — the source guards the
nickname membership test on the truthiness of the sanitized nickname, and
the empty string is falsy. -/
theorem run_match_iff_counterexample :
    skipUsernameSpamFilter exEmojiNickCandidate exDb = false ∧
    getProtectedRolesForServer exEmojiNickCandidate exDb ≠ [] ∧
    truthyNick exEmojiNickCandidate.nickname = true ∧
    sanitizeUsername (exEmojiNickCandidate.nickname.getD []) ∈
      protectedNamesOf (exStarDirectory
        (getProtectedRolesForServer exEmojiNickCandidate exDb)) ∧
    runUsernameSpamFilter exEmojiNickCandidate exDb exStarDirectory true true =
      (false, []) := by
  decide

/-- A Discord role as `addRolesToUsernameSpamFilter` consumes it. -/
structure Role where
  id : Str
  name : Str
deriving DecidableEq

/-- True when a record carries the given (objectType, objectId, serverId)
key, the tuple the collection's unique index is on. -/
def keyMatches (ot : SpamFilterConfigType) (oid sid : Str) (c : SpamFilterConfig) : Bool :=
  decide (c.objectType = ot ∧ c.discordObjectId = oid ∧ c.discordServerId = sid)

/-- Number of records in the store carrying the given key. -/
def countKey (store : List SpamFilterConfig) (ot : SpamFilterConfigType) (oid sid : Str) : Nat :=
  store.countP (keyMatches ot oid sid)

/-- Two records carry the same key. -/
def sameKey (a b : SpamFilterConfig) : Bool :=
  keyMatches a.objectType a.discordObjectId a.discordServerId b

/-- Modelled from the spec: the MongoDB driver's `insertMany` with
`ordered: false` against the unique index on (objectType, discordObjectId,
discordServerId) — the spec calls for unordered, best-effort semantics where
a duplicate-key rejection for one record must not abort insertion of the
others. Each record is appended unless its key is already present; the flag
tells whether some record was rejected with duplicate-key error 11000. -/
def insertUnordered : List SpamFilterConfig → List SpamFilterConfig →
    List SpamFilterConfig × Bool
  | store, [] => (store, false)
  | store, r :: rest =>
    if store.any (sameKey r) then
      ((insertUnordered store rest).1, true)
    else insertUnordered (store ++ [r]) rest

/-- Log line of the duplicate-key catch branch. -/
def dupLogMsg : Str := "dup key found, proceeding".toList

/-- Log line of the generic catch branch. -/
def failLogMsg : Str := "failed to store username spam filter roles in db".toList

/-- The record `addRolesToUsernameSpamFilter` builds for one role: the
object type, the role's id and name, and the guild's id and name. -/
def mkConfigRecord (objectType : SpamFilterConfigType) (serverId serverName : Str)
    (role : Role) : SpamFilterConfig :=
  { objectType := objectType, discordObjectId := role.id,
    discordObjectName := role.name, discordServerId := serverId,
    discordServerName := serverName }

/-- `addRolesToUsernameSpamFilter` of `ConfigSpamFilter.ts`: build one config
record per role, bulk-insert them unordered, and on a duplicate-key error log
and return — the error is not rethrown. The result is the new store, the log
lines, and the outcome the caller observes. -/
def addRolesToUsernameSpamFilter (store : List SpamFilterConfig) (roles : List Role)
    (objectType : SpamFilterConfigType) (serverId serverName : Str) :
    List SpamFilterConfig × List Str × Except Str Unit :=
  let usernameSpamFilterList := roles.map (mkConfigRecord objectType serverId serverName)
  let r := insertUnordered store usernameSpamFilterList
  if r.2 then
    (r.1, [dupLogMsg, failLogMsg], Except.ok ())
  else
    (r.1, [], Except.ok ())

/-- `insertUnordered` only appends to the store. -/
theorem insertUnordered_suffix (records store : List SpamFilterConfig) :
    ∃ ext, (insertUnordered store records).1 = store ++ ext := by
  induction records generalizing store with
  | nil => exact ⟨[], by simp [insertUnordered]⟩
  | cons r rest ih =>
    by_cases h : store.any (sameKey r)
    · obtain ⟨ext, hext⟩ := ih store
      exact ⟨ext, by simp [insertUnordered, h, hext]⟩
    · obtain ⟨ext, hext⟩ := ih (store ++ [r])
      exact ⟨r :: ext, by simp [insertUnordered, h, hext]⟩

/-- A key present before `insertUnordered` is still present afterwards. -/
theorem countKey_insertUnordered_mono (records store : List SpamFilterConfig)
    (ot : SpamFilterConfigType) (oid sid : Str) :
    countKey store ot oid sid ≤ countKey (insertUnordered store records).1 ot oid sid := by
  obtain ⟨ext, hext⟩ := insertUnordered_suffix records store
  simp [countKey, hext, List.countP_append]

/-- `insertUnordered` preserves the unique-index invariant. -/
theorem countKey_insertUnordered_le_one (records store : List SpamFilterConfig)
    (h : ∀ ot oid sid, countKey store ot oid sid ≤ 1) :
    ∀ ot oid sid, countKey (insertUnordered store records).1 ot oid sid ≤ 1 := by
  induction records generalizing store with
  | nil => exact h
  | cons r rest ih =>
    by_cases hany : store.any (sameKey r)
    · intro ot oid sid
      simpa [insertUnordered, hany] using ih store h ot oid sid
    · have hnew : ∀ ot oid sid, countKey (store ++ [r]) ot oid sid ≤ 1 := by
        intro ot oid sid
        by_cases hk : keyMatches ot oid sid r
        · have h0 : List.countP (keyMatches ot oid sid) store = 0 := by
            rw [List.countP_eq_zero]
            intro a ha hpa
            have hstore : store.any (sameKey r) = true := by
              rw [List.any_eq_true]
              refine ⟨a, ha, ?_⟩
              simp only [keyMatches, decide_eq_true_eq] at hk hpa
              simp [sameKey, keyMatches, hk.1 ▸ hpa.1, hk.2.1 ▸ hpa.2.1,
                hk.2.2 ▸ hpa.2.2]
            exact hany hstore
          simp [countKey, List.countP_append, List.countP_cons, hk, h0]
        · have hle := h ot oid sid
          simp only [countKey, List.countP_append] at hle ⊢
          simpa [List.countP_cons, hk] using hle
      intro ot oid sid
      simpa [insertUnordered, hany] using ih (store ++ [r]) hnew ot oid sid

/-- Every inserted record's key is present after `insertUnordered`. -/
theorem countKey_insertUnordered_pos (records store : List SpamFilterConfig)
    (r : SpamFilterConfig) (hr : r ∈ records) :
    1 ≤ countKey (insertUnordered store records).1
      r.objectType r.discordObjectId r.discordServerId := by
  induction records generalizing store with
  | nil => cases hr
  | cons a rest ih =>
    rcases List.mem_cons.mp hr with rfl | hmem
    · by_cases hany : store.any (sameKey r)
      · have h1 : 1 ≤ countKey store r.objectType r.discordObjectId r.discordServerId := by
          rw [List.any_eq_true] at hany
          obtain ⟨b, hb, hkb⟩ := hany
          have : 0 < List.countP (keyMatches r.objectType r.discordObjectId
              r.discordServerId) store := by
            rw [List.countP_pos_iff]
            exact ⟨b, hb, hkb⟩
          simpa [countKey] using this
        calc 1 ≤ countKey store r.objectType r.discordObjectId r.discordServerId := h1
          _ ≤ _ := by
            simpa [insertUnordered, hany] using
              countKey_insertUnordered_mono rest store
                r.objectType r.discordObjectId r.discordServerId
      · have h1 : 1 ≤ countKey (store ++ [r]) r.objectType r.discordObjectId
            r.discordServerId := by
          simp [countKey, List.countP_append, List.countP_cons, keyMatches]
        calc 1 ≤ countKey (store ++ [r]) r.objectType r.discordObjectId
              r.discordServerId := h1
          _ ≤ _ := by
            simpa [insertUnordered, hany] using
              countKey_insertUnordered_mono rest (store ++ [r])
                r.objectType r.discordObjectId r.discordServerId
    · by_cases hany : store.any (sameKey a) <;>
        simpa [insertUnordered, hany] using ih _ hmem

/-- The three components `addRolesToUsernameSpamFilter` produces, written out
by cases on the duplicate-key flag. -/
theorem addRoles_components (store : List SpamFilterConfig) (roles : List Role)
    (objectType : SpamFilterConfigType) (serverId serverName : Str) :
    addRolesToUsernameSpamFilter store roles objectType serverId serverName =
      ((insertUnordered store
          (roles.map (mkConfigRecord objectType serverId serverName))).1,
        (if (insertUnordered store
          (roles.map (mkConfigRecord objectType serverId serverName))).2 then
            [dupLogMsg, failLogMsg] else []),
        Except.ok ()) := by
  simp only [addRolesToUsernameSpamFilter]
  by_cases hf : (insertUnordered store
      (roles.map (mkConfigRecord objectType serverId serverName))).2 <;>
    simp [hf]

/-- Claim C8: bulk insertion of roles is best-effort — given the unique-index
invariant, the caller always observes a normal return (no duplicate-key
exception propagates), every given role's (objectType, role, server) tuple is
listed exactly once afterwards, and the unique-index invariant is
preserved. -/
theorem addRoles_duplicate_tolerant (store : List SpamFilterConfig) (roles : List Role)
    (objectType : SpamFilterConfigType) (serverId serverName : Str)
    (hUniq : ∀ ot oid sid, countKey store ot oid sid ≤ 1) :
    (addRolesToUsernameSpamFilter store roles objectType serverId serverName).2.2 =
      Except.ok () ∧
    (∀ role ∈ roles,
      countKey (addRolesToUsernameSpamFilter store roles objectType serverId serverName).1
        objectType role.id serverId = 1) ∧
    (∀ ot oid sid,
      countKey (addRolesToUsernameSpamFilter store roles objectType serverId serverName).1
        ot oid sid ≤ 1) := by
  rw [addRoles_components]
  refine ⟨rfl, ?_, ?_⟩
  · intro role hrole
    have hmem : mkConfigRecord objectType serverId serverName role ∈
        roles.map (mkConfigRecord objectType serverId serverName) :=
      List.mem_map_of_mem _ hrole
    have hpos := countKey_insertUnordered_pos
      (roles.map (mkConfigRecord objectType serverId serverName)) store _ hmem
    have hle := countKey_insertUnordered_le_one
      (roles.map (mkConfigRecord objectType serverId serverName)) store hUniq
      objectType role.id serverId
    simp only [mkConfigRecord] at hpos
    show countKey (insertUnordered store
      (roles.map (mkConfigRecord objectType serverId serverName))).1
      objectType role.id serverId = 1
    omega
  · intro ot oid sid
    show countKey (insertUnordered store
      (roles.map (mkConfigRecord objectType serverId serverName))).1 ot oid sid ≤ 1
    exact countKey_insertUnordered_le_one _ _ hUniq ot oid sid

/-- A stored configuration record for the first example role. -/
def exRoleA : Role := { id := "role-a".toList, name := "Role A".toList }

/-- A second example role, not yet stored. -/
def exRoleB : Role := { id := "role-b".toList, name := "Role B".toList }

/-- A store already holding the (PROTECTED_ROLE, role-a, guild-1) tuple, so
that re-adding `exRoleA` hits the unique index. -/
def exStore : List SpamFilterConfig :=
  [{ objectType := SpamFilterConfigType.PROTECTED_ROLE,
     discordObjectId := "role-a".toList, discordObjectName := "Role A".toList,
     discordServerId := exGuildId, discordServerName := "Guild".toList }]

/-- Witness for claim C8: adding a duplicate of role-a together with the new
role-b returns normally, lists both tuples exactly once, and keeps the store
duplicate-free. -/
theorem addRoles_duplicate_tolerant_witness :
    (addRolesToUsernameSpamFilter exStore [exRoleA, exRoleB]
      SpamFilterConfigType.PROTECTED_ROLE exGuildId "Guild".toList).2.2 =
        Except.ok () ∧
    (∀ role ∈ [exRoleA, exRoleB],
      countKey (addRolesToUsernameSpamFilter exStore [exRoleA, exRoleB]
        SpamFilterConfigType.PROTECTED_ROLE exGuildId "Guild".toList).1
        SpamFilterConfigType.PROTECTED_ROLE role.id exGuildId = 1) ∧
    (∀ ot oid sid,
      countKey (addRolesToUsernameSpamFilter exStore [exRoleA, exRoleB]
        SpamFilterConfigType.PROTECTED_ROLE exGuildId "Guild".toList).1
        ot oid sid ≤ 1) :=
  addRoles_duplicate_tolerant exStore [exRoleA, exRoleB]
    SpamFilterConfigType.PROTECTED_ROLE exGuildId "Guild".toList
    (by
      intro ot oid sid
      simp only [exStore, countKey, List.countP_cons, List.countP_nil]
      split <;> simp)

/-- The username-bearing part of a Discord `User` object as the `userUpdate`
event delivers it; the event carries user-level data only, so no per-guild
nickname is present. -/
structure UserLite where
  username : Str
deriving DecidableEq

/-- `execute` of `UserUpdate.ts`: when the username changed, resolve the
guild member and, when the guild passes the Bankless DAO check, invoke the
spam filter. `isBankless` stands for `ServiceUtils.isBanklessDAO` (not under
src/), modelled as the boolean the check yields for the resolved member's
guild. The result is the spam-filter invocation's value when one happens,
`none` when the handler returns without invoking it. -/
def userUpdateExecute (oldUser newUser : UserLite) (member : GuildMember)
    (db : List SpamFilterConfig) (g : List Str → List GuildMember)
    (dmOk banOk : Bool) (isBankless : Bool) : Option (Bool × List Effect) :=
  if oldUser.username ≠ newUser.username then
    if isBankless then some (runUsernameSpamFilter member db g dmOk banOk)
    else none
  else none

/-- Counterexample to claim C9: a userUpdate event whose username did change
(from a to b) while the resolved member's guild fails the Bankless DAO
check — the handler returns without running the spam filter. -/
theorem userUpdate_not_always_filtered :
    "a".toList ≠ "b".toList ∧
    userUpdateExecute { username := "a".toList } { username := "b".toList }
      exImpersonator exDb exDirectory true true false = none := by
  decide

/-- Claim C9 as amended: the userUpdate handler invokes
`runUsernameSpamFilter` on the resolved guild member exactly when the
username changed and the member's guild passes the Bankless DAO check;
nickname changes are not visible to this handler. -/
theorem userUpdate_invokes_iff (oldUser newUser : UserLite) (member : GuildMember)
    (db : List SpamFilterConfig) (g : List Str → List GuildMember)
    (dmOk banOk isBankless : Bool) :
    userUpdateExecute oldUser newUser member db g dmOk banOk isBankless =
        some (runUsernameSpamFilter member db g dmOk banOk) ↔
      (oldUser.username ≠ newUser.username ∧ isBankless = true) := by
  by_cases h1 : oldUser.username ≠ newUser.username <;>
    by_cases h2 : isBankless <;>
    simp [userUpdateExecute, h1, h2]
